import Mathlib

/-!
Verification of the routing / validation / harness core of the
llm-optimization-platform repository, shallowly embedded in Lean.

Sources embedded:
* `services/test-harness/harness.py` — `TestHarness._validate_response`,
  `TestHarness.execute_prompt`, `TestHarness.run_promptset`.
* `services/gateway/routing.py` — `Router.select_variant`.
* `services/gateway/propagation.py` — `create_propagation_headers`.
* `services/gateway/main.py` — `route_predict`.
* `services/data-engine/api.py` — `_execute_run`, `start_harness_run`.

Modelling conventions: Python dict fields that may be absent are `Option`;
Python exceptions are `Except String`; network / clock effects are passed in
as explicit outcome parameters; `json.loads` success is abstracted as a
parameter `jp : String → Bool` (the library call is external to the repo).
Machine floats are modelled as `ℚ`; Python `round(x, 1)` is round half to
even, modelled exactly on `ℚ` (float representation error is out of scope).
String case-folding is modelled per character (ASCII), as in Lean core.
-/

/-- Boolean list-prefix test (the model's own, to keep kernel reduction
cheap on concrete inputs). -/
def isPrefixOfB : List Char → List Char → Bool
  | [], _ => true
  | _ :: _, [] => false
  | a :: xs, b :: ys => a == b && isPrefixOfB xs ys

/-- Does `needle` occur as a contiguous run inside `hay`?  Models Python's
`needle in hay` on strings. -/
def containsSubAux (needle : List Char) : List Char → Bool
  | [] => isPrefixOfB needle []
  | c :: rest => isPrefixOfB needle (c :: rest) || containsSubAux needle rest

/-- Python `needle in hay` for strings. -/
def containsSubstr (hay needle : String) : Bool :=
  containsSubAux needle.data hay.data

/-- Python `str.lower()` (per-character fold, as in Lean core's `toLower`). -/
def strLower (s : String) : String :=
  ⟨s.data.map Char.toLower⟩

/-- Python `s[:n]` for a string (character prefix). -/
def strTake (s : String) (n : ℕ) : String :=
  ⟨s.data.take n⟩

/-- Number of maximal whitespace-separated words, i.e. `len(s.split())`. -/
def countWordsAux : List Char → Bool → ℕ
  | [], _ => 0
  | c :: rest, inWord =>
    if c.isWhitespace then countWordsAux rest false
    else (if inWord then 0 else 1) + countWordsAux rest true

/-- Python `len(s.split())`. -/
def countWords (s : String) : ℕ :=
  countWordsAux s.data false

/-- Python `round` on a rational: round half to even (banker's rounding). -/
def roundHalfEven (q : ℚ) : ℤ :=
  let f := ⌊q⌋
  let frac := q - f
  if frac < 1/2 then f
  else if 1/2 < frac then f + 1
  else if f % 2 = 0 then f else f + 1

/-- Python `round(q, 1)`. -/
def round1 (q : ℚ) : ℚ :=
  (roundHalfEven (q * 10) : ℚ) / 10

/-- A prompt record (one JSONL line of a promptset).  Optional fields model
keys that may be absent from the dict: `_validate_response` and
`execute_prompt` access them with `.get`, except `prompt["prompt_id"]`
which raises `KeyError` when the key is missing. -/
structure Prompt where
  prompt_id : Option String
  prompt : String := ""
  scenario_id : Option String := none
  dataset_id : Option String := none
  expected_contains : Option (List String) := none
  expected_format : Option String := none
  category : Option String := none
  max_tokens : Option ℕ := none
  deriving Repr, DecidableEq

/-- The JSON body a backend answers with, restricted to the fields the
harness reads. -/
structure BackendResponse where
  output : Option String := none
  response : Option String := none
  tokens_generated : Option ℕ := none
  model_version : Option String := none
  deriving Repr, DecidableEq

/-- `str(result.get("output") or result.get("response", ""))`: Python `or`
falls through on a falsy (absent or empty) `output`. -/
def rawResponseText (r : BackendResponse) : String :=
  match r.output with
  | some s => if s = "" then r.response.getD "" else s
  | none => r.response.getD ""

/-- `result.get("response", "")`, the exact argument of `json.loads` in the
`expected_format == "json"` branch of `_validate_response`. -/
def rawPayload (r : BackendResponse) : String :=
  r.response.getD ""

/-- All expected substrings (already lower-cased hay in `text`) present,
each lower-cased: the loop body of `_validate_response`. -/
def containsAll (text : String) (terms : List String) : Bool :=
  terms.all fun t => containsSubstr text (strLower t)

/-- `TestHarness._validate_response` (harness.py 207–226).  `jp s` abstracts
`json.loads(s)` succeeding. -/
def validateResponse (jp : String → Bool) (p : Prompt) (result : BackendResponse) : Bool :=
  let response_text := strLower (rawResponseText result)
  let substrOk :=
    match p.expected_contains with
    | none => true
    | some terms => if terms.isEmpty then true else containsAll response_text terms
  if substrOk = false then false
  else if p.expected_format = some "json" then jp (rawPayload result)
  else true

/-- Constructor arguments of `TestHarness` (harness.py 61–74). -/
structure HarnessCfg where
  gateway_url : String
  run_id : String
  concurrency : ℕ := 10
  compare_baseline : Bool := false
  baseline_team : String := "quant"
  deriving Repr, DecidableEq

/-- One per-prompt outcome record (harness.py 34–55). -/
structure HarnessResult where
  prompt_id : String
  scenario_id : String
  dataset_id : String
  run_id : String
  team : String
  variant : String
  passed : Bool
  latency_ms : ℚ
  error : Option String := none
  response_preview : Option String := none
  tokens_generated : ℕ := 0
  tokens_per_second : ℚ := 0
  category : Option String := none
  model_version : Option String := none
  baseline_response : Option String := none
  baseline_latency_ms : ℚ := 0
  baseline_passed : Option Bool := none
  deriving Repr, DecidableEq

/-- `TestHarness.execute_prompt` (harness.py 76–205).  The network call and
the clock are passed in: `outcome` is the dispatched request's fate
(`Except.error` = any transport / HTTP-status / decode exception, carrying
`str(e)`), `lat` the elapsed milliseconds, `blOutcome` the baseline call's
fate with its elapsed time.  A missing `prompt_id` key raises `KeyError`
at `span.set_attribute(..., prompt["prompt_id"])` *before* the `try`
block, so it escapes as `Except.error`. -/
def executePrompt (jp : String → Bool) (cfg : HarnessCfg) (p : Prompt)
    (team : String) (variant : Option String)
    (outcome : Except String BackendResponse) (lat : ℚ)
    (blOutcome : Except String (BackendResponse × ℚ)) :
    Except String HarnessResult :=
  match p.prompt_id with
  | none => Except.error "KeyError: prompt_id"
  | some pid =>
    match outcome with
    | Except.error e =>
      Except.ok
        { prompt_id := pid
          scenario_id := p.scenario_id.getD "unknown"
          dataset_id := p.dataset_id.getD "unknown"
          run_id := cfg.run_id
          team := team
          variant := variant.getD "default"
          passed := false
          latency_ms := lat
          error := some e }
    | Except.ok r =>
      let passed := validateResponse jp p r
      let response_text := rawResponseText r
      let tokens_generated := r.tokens_generated.getD (countWords response_text)
      let tokens_per_second : ℚ :=
        if 0 < lat then (tokens_generated : ℚ) / (lat / 1000) else 0
      let bl : Option String × ℚ × Option Bool :=
        if cfg.compare_baseline then
          match blOutcome with
          | Except.ok (br, blLat) =>
            (some (strTake (rawResponseText br) 200), blLat,
              some (validateResponse jp p br))
          | Except.error _ => (some "[baseline error]", 0, none)
        else (none, 0, none)
      Except.ok
        { prompt_id := pid
          scenario_id := p.scenario_id.getD "unknown"
          dataset_id := p.dataset_id.getD "unknown"
          run_id := cfg.run_id
          team := team
          variant := variant.getD "default"
          passed := passed
          latency_ms := lat
          response_preview := some (strTake response_text 200)
          tokens_generated := tokens_generated
          tokens_per_second := round1 tokens_per_second
          category := p.category
          model_version := some (r.model_version.getD "unknown")
          baseline_response := bl.1
          baseline_latency_ms := bl.2.1
          baseline_passed := bl.2.2 }

/-- `asyncio.gather` without `return_exceptions`: all values in task order,
or the exception of a failed task. -/
def sequenceE : List (Except String HarnessResult) → Except String (List HarnessResult)
  | [] => Except.ok []
  | x :: xs =>
    match x with
    | Except.error e => Except.error e
    | Except.ok a =>
      match sequenceE xs with
      | Except.error e => Except.error e
      | Except.ok ys => Except.ok (a :: ys)

/-- The task list of `TestHarness.run_promptset` (harness.py 236–239): one
`execute_prompt` task per prompt, in promptset order; the task at position
`i` gets network outcome `outcome i`, elapsed time `lat i`, baseline
outcome `bl i`. -/
def promptTasks (jp : String → Bool) (cfg : HarnessCfg)
    (team : String) (variant : Option String)
    (outcome : ℕ → Except String BackendResponse) (lat : ℕ → ℚ)
    (bl : ℕ → Except String (BackendResponse × ℚ)) :
    ℕ → List Prompt → List (Except String HarnessResult)
  | _, [] => []
  | i, p :: ps =>
    executePrompt jp cfg p team variant (outcome i) (lat i) (bl i) ::
      promptTasks jp cfg team variant outcome lat bl (i + 1) ps

/-- `TestHarness.run_promptset` (harness.py 228–241): the task list joined
by `asyncio.gather`, which yields results in task (= promptset) order. -/
def runPromptset (jp : String → Bool) (cfg : HarnessCfg) (prompts : List Prompt)
    (team : String) (variant : Option String)
    (outcome : ℕ → Except String BackendResponse) (lat : ℕ → ℚ)
    (bl : ℕ → Except String (BackendResponse × ℚ)) :
    Except String (List HarnessResult) :=
  sequenceE (promptTasks jp cfg team variant outcome lat bl 0 prompts)

/-- Completion-order model for `asyncio.gather`: each finished task writes
its (fixed) result into its own slot, in completion order `sched`. -/
def gatherSched (task : ℕ → HarnessResult) (init : List HarnessResult)
    (sched : List ℕ) : List HarnessResult :=
  sched.foldl (fun acc i => acc.set i (task i)) init

/-- One entry of a team's `ab_variants` dict (routing.py 15): the config
dict of a variant, read only through `.get("weight", 0)`.  A JSON weight
is an arbitrary integer; absence defaults to 0. -/
structure VariantCfg where
  weight : Option ℤ := none
  deriving Repr, DecidableEq

/-- `v.get("weight", 0)` (routing.py 53, 61). -/
def weightOf (v : VariantCfg) : ℤ :=
  v.weight.getD 0

/-- `RouteConfig` (routing.py 10–15).  `ab_variants` keeps the dict's
insertion order — iteration order is part of the selection contract. -/
structure RouteConfig where
  url : String
  timeout_ms : ℤ := 30000
  ab_variants : Option (List (String × VariantCfg)) := none
  deriving Repr, DecidableEq

/-- The router's parsed route table: `self.routes`, a dict team → config. -/
def RouteTable := List (String × RouteConfig)

/-- `self.routes.get(team)` (routing.py 38, 47). -/
def lookupRoute (routes : RouteTable) (team : String) : Option RouteConfig :=
  (routes.find? fun e => e.1 = team).map Prod.snd

/-- The `for variant_name, variant_config in variants.items()` loop of
`select_variant` (routing.py 59–63): accumulate weights, return the first
name whose cumulative sum reaches the draw `r`; `none` when the loop
falls through. -/
def scanVariants (r : ℤ) : List (String × VariantCfg) → ℤ → Option String
  | [], _ => none
  | (n, c) :: rest, cum =>
    let cum' := cum + weightOf c
    if r ≤ cum' then some n else scanVariants r rest cum'

/-- `Router.select_variant` (routing.py 40–65).  The draw
`r = random.randint(1, total_weight)` is passed in.  `not route.ab_variants`
is true for an absent *and* for an empty dict. -/
def selectVariant (routes : RouteTable) (team : String) (r : ℤ) : Option String :=
  match lookupRoute routes team with
  | none => none
  | some route =>
    match route.ab_variants with
    | none => none
    | some [] => none
    | some (v0 :: rest) =>
      let variants := v0 :: rest
      let total_weight := (variants.map fun v => weightOf v.2).sum
      if total_weight = 0 then none
      else
        match scanVariants r variants 0 with
        | some n => some n
        | none => some v0.1

/-- Cumulative weight of the first `k` configured variants. -/
def cumWeight (vs : List (String × VariantCfg)) (k : ℕ) : ℤ :=
  ((vs.take k).map fun v => weightOf v.2).sum

/-- One baggage entry of `create_propagation_headers` guarded by Python
truthiness (propagation.py 25–32): absent and empty strings are dropped. -/
def optEntry (key : String) (v : Option String) : List (String × String) :=
  match v with
  | none => []
  | some s => if s = "" then [] else [(key, s)]

/-- The baggage set built by `create_propagation_headers`
(propagation.py 13–38), as the ordered key/value list that `inject`
serialises into the returned headers. -/
def createPropagationBaggage (policy_id : String) (ab_bucket experiment_id
    promptset_id variant_id : Option String) : List (String × String) :=
  [("lab.route.policy.id", policy_id)]
    ++ optEntry "lab.ab.bucket" ab_bucket
    ++ optEntry "lab.experiment.id" experiment_id
    ++ optEntry "lab.promptset.id" promptset_id
    ++ optEntry "lab.model.variant.id" variant_id

/-- The five baggage keys `create_propagation_headers` may set. -/
def baggageKeys : List String :=
  ["lab.route.policy.id", "lab.ab.bucket", "lab.experiment.id",
    "lab.promptset.id", "lab.model.variant.id"]

/-- The fate of the gateway's forwarding block (main.py 116–161): the body
parse, the backend post and the response decode all sit in one `try`;
`httpx.TimeoutException` is caught first, any other exception second. -/
inductive CallOutcome where
  | ok (result : String)
  | timeout
  | failure (msg : String)
  deriving Repr, DecidableEq

/-- The structured `detail` body of a gateway error response
(main.py 94–98, 163–183). -/
structure ErrorDetail where
  error : String
  team : String
  message : Option String := none
  correlation_id : Option String := none
  deriving Repr, DecidableEq

/-- What `route_predict` answers: a JSON success response with tracking
headers, or an `HTTPException` with a status code and structured detail. -/
inductive GatewayReply where
  | success (body : String) (correlation_id : String) (team : String)
      (variant : String)
  | httpError (status : ℕ) (detail : ErrorDetail)
  deriving Repr, DecidableEq

/-- `route_predict` (main.py 69–183).  `xcid` is the `X-Correlation-ID`
header, `gen` the `uuid.uuid4()` fallback (`or` also discards an empty
header), `r` the variant draw, `outcome` the forwarding block's fate.
`RouteConfig` has no `policy_id` attribute, so `policy_id` is always
`"default"` (main.py 105). -/
def routePredict (routes : RouteTable) (team : String) (xcid : Option String)
    (gen : String) (r : ℤ) (outcome : CallOutcome) : GatewayReply :=
  let correlation_id :=
    match xcid with
    | some s => if s = "" then gen else s
    | none => gen
  match lookupRoute routes team with
  | none =>
    GatewayReply.httpError 404 { error := "unknown_team", team := team }
  | some _route =>
    let variant := selectVariant routes team r
    match outcome with
    | CallOutcome.timeout =>
      GatewayReply.httpError 504
        { error := "upstream_timeout", team := team,
          correlation_id := some correlation_id }
    | CallOutcome.failure msg =>
      GatewayReply.httpError 502
        { error := "upstream_error", team := team, message := some msg,
          correlation_id := some correlation_id }
    | CallOutcome.ok result =>
      GatewayReply.success result correlation_id team (variant.getD "default")

/-- `HarnessRunSummary.status` values (api.py 57). -/
inductive RunStatus where
  | pending
  | running
  | completed
  | failed
  deriving Repr, DecidableEq

/-- One record of the in-memory run store `_runs` (api.py 245–259 plus the
keys added by `_execute_run`'s terminal updates). -/
structure RunRecord where
  run_id : String
  status : RunStatus
  promptset : String
  team : String
  variant : Option String := none
  total : ℕ := 0
  passed : ℕ := 0
  failed : ℕ := 0
  pass_rate : ℚ := 0
  avg_latency_ms : ℚ := 0
  avg_tokens_per_second : ℚ := 0
  category_breakdown : Option (List (String × ℕ × ℕ)) := none
  started_at : String
  completed_at : Option String := none
  errors : List String := []
  deriving Repr, DecidableEq

/-- The dict `start_harness_run` stores under a fresh `run_id`
(api.py 245–259). -/
def initRunRecord (run_id promptset team : String) (variant : Option String)
    (now : String) : RunRecord :=
  { run_id := run_id, status := RunStatus.pending, promptset := promptset,
    team := team, variant := variant, started_at := now }

/-- The `except` update of `_execute_run` (api.py 211–216): status, stamp
and error message only — counters are left as they were. -/
def failUpdate (rec : RunRecord) (e : String) (now : String) : RunRecord :=
  { rec with
    status := RunStatus.failed
    completed_at := some now
    errors := [e] }

/-- `prompts[:max_prompts]` under `if max_prompts and max_prompts < len(prompts)`
(api.py 166–167): `max_prompts = 0` is falsy and slices nothing. -/
def applyMaxPrompts (prompts : List Prompt) : Option ℕ → List Prompt
  | none => prompts
  | some m => if m ≠ 0 ∧ m < prompts.length then prompts.take m else prompts

/-- Add one result to the per-category tally, preserving first-seen order
(api.py 189–196). -/
def bumpCategory (acc : List (String × ℕ × ℕ)) (cat : String) (passed : Bool) :
    List (String × ℕ × ℕ) :=
  match acc with
  | [] => [(cat, 1, if passed then 1 else 0)]
  | (c, tot, pas) :: rest =>
    if c = cat then (c, tot + 1, if passed then pas + 1 else pas) :: rest
    else (c, tot, pas) :: bumpCategory rest cat passed

/-- The category breakdown dict of `_execute_run` (api.py 189–196):
category name → (total, passed), `"uncategorized"` as default key. -/
def categoryBreakdown (results : List HarnessResult) : List (String × ℕ × ℕ) :=
  results.foldl (fun acc res => bumpCategory acc (res.category.getD "uncategorized") res.passed) []

/-- `_execute_run` (api.py 153–216) as one state transformation of the
run's record.  Effects are passed in: `load` is the promptset read
(api.py 160–164), `outcome`/`lat`/`bl` feed the harness tasks, `now` the
completion stamp.  The harness is built with `compare_baseline` left at
its `False` default (api.py 172–176); `_runs[run_id]` is written only by
this one background task, with a fresh `run_id` per task. -/
def executeRun (jp : String → Bool) (gatewayUrl : String) (rec : RunRecord)
    (load : Except String (List Prompt)) (mp : Option ℕ)
    (team : String) (variant : Option String) (concurrency : ℕ)
    (outcome : ℕ → Except String BackendResponse) (lat : ℕ → ℚ)
    (bl : ℕ → Except String (BackendResponse × ℚ)) (now : String) : RunRecord :=
  let rec0 := { rec with status := RunStatus.running }
  match load with
  | Except.error e => failUpdate rec0 e now
  | Except.ok prompts0 =>
    let prompts := applyMaxPrompts prompts0 mp
    let rec1 := { rec0 with total := prompts.length }
    let cfg : HarnessCfg :=
      { gateway_url := gatewayUrl, run_id := rec.run_id,
        concurrency := concurrency }
    match runPromptset jp cfg prompts team variant outcome lat bl with
    | Except.error e => failUpdate rec1 e now
    | Except.ok results =>
      let passed := (results.filter fun res => res.passed).length
      let failed := (results.filter fun res => !res.passed).length
      let avg_lat : ℚ :=
        if results.isEmpty then 0
        else (results.map fun res => res.latency_ms).sum / (results.length : ℚ)
      let avg_tps : ℚ :=
        if results.isEmpty then 0
        else (results.map fun res => res.tokens_per_second).sum / (results.length : ℚ)
      let errs :=
        (results.filterMap fun res =>
          res.error.map fun e => res.prompt_id ++ ": " ++ e).take 20
      let categories := categoryBreakdown results
      { rec1 with
        status := RunStatus.completed
        total := results.length
        passed := passed
        failed := failed
        pass_rate :=
          if results.isEmpty then 0
          else round1 ((passed : ℚ) / (results.length : ℚ) * 100)
        avg_latency_ms := round1 avg_lat
        avg_tokens_per_second := round1 avg_tps
        category_breakdown := if categories.isEmpty then none else some categories
        completed_at := some now
        errors := errs }

/-- A concrete parse oracle for closed instances: `json.loads` fails on the
empty string and on the bare word used in the counterexample below. -/
def jpNone : String → Bool := fun _ => false

/-- A concrete parse oracle for closed instances at inputs where
`json.loads` succeeds (every non-empty input used with it is valid JSON). -/
def jpNonEmpty : String → Bool := fun s => !(s = "")

/-- All `expected_contains` terms of `p` occur (case-insensitively) in the
validated response text of `r`; vacuously true when the field is absent. -/
def expectedContainsOk (p : Prompt) (r : BackendResponse) : Bool :=
  match p.expected_contains with
  | none => true
  | some terms => containsAll (strLower (rawResponseText r)) terms

/-- A default `HarnessResult`, used only as the out-of-range fallback of
indexed access in statements about result placement. -/
def emptyResult : HarnessResult :=
  { prompt_id := "", scenario_id := "", dataset_id := "", run_id := "",
    team := "", variant := "", passed := false, latency_ms := 0 }

/-- A minimal concrete prompt for closed instances. -/
def samplePrompt : Prompt :=
  { prompt_id := some "a" }

/-- The exact `HarnessResult` that `execute_prompt` builds for
`samplePrompt` when its dispatch raises `"boom"` after 7 ms. -/
def sampleFailResult : HarnessResult :=
  { prompt_id := "a", scenario_id := "unknown", dataset_id := "unknown",
    run_id := "r", team := "quant", variant := "default", passed := false,
    latency_ms := 7, error := some "boom" }

/-- A concrete route with one zero-weight variant, for closed instances. -/
def zeroWeightRoute : RouteConfig :=
  { url := "u", ab_variants := some [("a", { weight := some 0 })] }

/-- A concrete route with a 3/1 A/B split, for closed instances. -/
def abRoute : RouteConfig :=
  { url := "u",
    ab_variants := some [("a", { weight := some 3 }), ("b", { weight := some 1 })] }

/-- A prompt whose dict lacks the `prompt_id` key: its harness task raises
`KeyError` outside the per-prompt `try` block. -/
def badPrompt : Prompt :=
  { prompt_id := none }

/-- A run over a one-prompt set whose single task raises `KeyError`
(missing `prompt_id`): the run fails *after* `total` was set to 1, with
the counters still at their initial 0. -/
def badRunRecord : RunRecord :=
  executeRun jpNone "g" (initRunRecord "r1" "canary" "quant" none "t0")
    (Except.ok [badPrompt]) none "quant" none 5
    (fun _ => Except.error "boom") (fun _ => 0) (fun _ => Except.error "")
    "t1"

/-- A completed run over a one-prompt set whose dispatch fails: one failed
result, `total = 1`, `pass_rate = 0`. -/
def oneFailRunRecord : RunRecord :=
  executeRun jpNone "g" (initRunRecord "r3" "canary" "quant" none "t0")
    (Except.ok [samplePrompt]) none "quant" none 5
    (fun _ => Except.error "boom") (fun _ => 7) (fun _ => Except.error "")
    "t1"

/-- C2: for a prompt with `expected_format == "json"`, validation is false
whenever the raw `response` payload does not parse as JSON, regardless of
the substring outcome, and true whenever it does parse and every
`expected_contains` term (if any) is present. -/
theorem validate_json_format (jp : String → Bool) (p : Prompt)
    (r : BackendResponse) (hfmt : p.expected_format = some "json") :
    (jp (rawPayload r) = false → validateResponse jp p r = false) ∧
    (jp (rawPayload r) = true → expectedContainsOk p r = true →
      validateResponse jp p r = true) := by
  constructor
  · intro hjp
    cases hec : p.expected_contains with
    | none => simp [validateResponse, hec, hfmt, hjp]
    | some terms =>
      by_cases hT : terms.isEmpty
      · simp [validateResponse, hec, hT, hfmt, hjp]
      · by_cases hca : containsAll (strLower (rawResponseText r)) terms
        · simp [validateResponse, hec, hT, hfmt, hjp, hca]
        · simp [validateResponse, hec, hT, hca]
  · intro hjp hca
    cases hec : p.expected_contains with
    | none => simp [validateResponse, hec, hfmt, hjp]
    | some terms =>
      have hca' : containsAll (strLower (rawResponseText r)) terms = true := by
        simpa [expectedContainsOk, hec] using hca
      by_cases hT : terms.isEmpty
      · simp [validateResponse, hec, hT, hfmt, hjp]
      · simp [validateResponse, hec, hT, hfmt, hjp, hca']

/-- Witness for `validate_json_format`: a JSON-format prompt whose term is
present and whose payload parses. -/
theorem validate_json_format_witness :
    ({ prompt_id := some "p", expected_contains := some ["1"],
        expected_format := some "json" } : Prompt).expected_format = some "json" ∧
    validateResponse jpNonEmpty
      { prompt_id := some "p", expected_contains := some ["1"],
        expected_format := some "json" }
      { output := some "[1]", response := some "[1]" } = true :=
  ⟨rfl,
    (validate_json_format jpNonEmpty
      { prompt_id := some "p", expected_contains := some ["1"],
        expected_format := some "json" }
      { output := some "[1]", response := some "[1]" } rfl).2
      (by decide) (by decide)⟩

/-- Counterexample to C5 as stated: with `expected_contains = ["a"]` and
`expected_format = "json"`, every listed substring occurs in the response
text, yet validation is false, because the `response` key is absent and
`json.loads("")` raises (the oracle is consulted only at `""`, where
`jpNone` agrees with `json.loads`).  So "returns true iff every listed
substring occurs" fails without a format qualifier. -/
theorem validate_substrings_counterexample :
    containsAll
      (strLower (rawResponseText { output := some "abc" })) ["a"] = true ∧
    validateResponse jpNone
      { prompt_id := some "p1", expected_contains := some ["a"],
        expected_format := some "json" }
      { output := some "abc" } = false := by
  decide

/-- C5 (amended): the validated text is the case-folded `output` field
falling back to `response`; a missing listed substring always fails
validation; when `expected_format` is not `"json"` and `expected_contains`
is non-empty, validation is true iff every listed substring occurs; and
with neither field set, validation is unconditionally true. -/
theorem validate_substrings (jp : String → Bool) (p : Prompt)
    (r : BackendResponse) :
    (∀ terms, p.expected_contains = some terms →
      containsAll (strLower (rawResponseText r)) terms = false →
      validateResponse jp p r = false) ∧
    (∀ terms, p.expected_contains = some terms → terms ≠ [] →
      p.expected_format ≠ some "json" →
      (validateResponse jp p r = true ↔
        containsAll (strLower (rawResponseText r)) terms = true)) ∧
    (p.expected_contains = none → p.expected_format = none →
      validateResponse jp p r = true) := by
  refine ⟨?_, ?_, ?_⟩
  · intro terms hec hca
    have hT : ¬terms.isEmpty := by
      intro h
      rw [List.isEmpty_iff] at h
      subst h
      simp [containsAll] at hca
    simp [validateResponse, hec, hT, hca]
  · intro terms hec hne hfmt
    have hT : ¬terms.isEmpty := by
      intro h
      exact hne (List.isEmpty_iff.mp h)
    by_cases hca : containsAll (strLower (rawResponseText r)) terms
    · simp [validateResponse, hec, hT, hca, hfmt]
    · simp [validateResponse, hec, hT, hca]
  · intro hec hfmt
    simp [validateResponse, hec, hfmt]

/-- Witness for `validate_substrings`: a plain substring prompt whose term
occurs validates to true, via the iff direction of the theorem. -/
theorem validate_substrings_witness :
    ({ prompt_id := some "p2", expected_contains := some ["x"] } :
      Prompt).expected_contains = some ["x"] ∧
    validateResponse jpNone
      { prompt_id := some "p2", expected_contains := some ["x"] }
      { output := some "xyz" } = true :=
  ⟨rfl,
    ((validate_substrings jpNone
      { prompt_id := some "p2", expected_contains := some ["x"] }
      { output := some "xyz" }).2.1 ["x"] rfl (by decide)
      (by decide)).mpr (by decide)⟩

/-- C6: when the dispatched request raises (transport, timeout, HTTP status
or decode error), `execute_prompt` returns — rather than raises — a
`HarnessResult` with `passed = false` and `error` the exception text, so a
per-prompt failure never aborts the run.  (The prompt must carry its
`prompt_id` key: that access sits before the `try` block.) -/
theorem executePrompt_dispatch_error (jp : String → Bool) (cfg : HarnessCfg)
    (p : Prompt) (team : String) (variant : Option String) (pid : String)
    (hp : p.prompt_id = some pid) (msg : String) (lat : ℚ)
    (bl : Except String (BackendResponse × ℚ)) :
    ∃ res : HarnessResult,
      executePrompt jp cfg p team variant (Except.error msg) lat bl =
        Except.ok res ∧
      res.passed = false ∧ res.error = some msg := by
  simp only [executePrompt, hp]
  exact ⟨_, rfl, rfl, rfl⟩

/-- Witness for `executePrompt_dispatch_error` at a concrete timeout. -/
theorem executePrompt_dispatch_error_witness :
    ({ prompt_id := some "p0" } : Prompt).prompt_id = some "p0" ∧
    ∃ res : HarnessResult,
      executePrompt jpNone { gateway_url := "g", run_id := "r" }
        { prompt_id := some "p0" } "quant" none
        (Except.error "ReadTimeout") 12 (Except.error "") = Except.ok res ∧
      res.passed = false ∧ res.error = some "ReadTimeout" :=
  ⟨rfl,
    executePrompt_dispatch_error jpNone { gateway_url := "g", run_id := "r" }
      { prompt_id := some "p0" } "quant" none "p0" rfl "ReadTimeout" 12
      (Except.error "")⟩

/-- C8: a route with no `ab_variants` (absent or empty — both falsy in
Python), and a route whose configured weights sum to 0, make
`select_variant` return `None` for every draw. -/
theorem selectVariant_none_cases (routes : RouteTable) (team : String)
    (rt : RouteConfig) (r : ℤ) (hroute : lookupRoute routes team = some rt)
    (h : rt.ab_variants = none ∨ rt.ab_variants = some [] ∨
      ∃ vs, rt.ab_variants = some vs ∧
        (vs.map fun v => weightOf v.2).sum = 0) :
    selectVariant routes team r = none := by
  rcases h with h | h | ⟨vs, hvs, hsum⟩
  · simp [selectVariant, hroute, h]
  · simp [selectVariant, hroute, h]
  · cases vs with
    | nil => simp [selectVariant, hroute, hvs]
    | cons v0 rest =>
      simp only [List.map_cons, List.sum_cons] at hsum
      simp [selectVariant, hroute, hvs, hsum]

/-- Witness for `selectVariant_none_cases`: a configured team whose single
variant has weight 0. -/
theorem selectVariant_none_cases_witness :
    lookupRoute [("quant", zeroWeightRoute)] "quant" = some zeroWeightRoute ∧
    selectVariant [("quant", zeroWeightRoute)] "quant" 1 = none :=
  ⟨by decide,
    selectVariant_none_cases _ "quant" zeroWeightRoute 1 (by decide)
      (Or.inr (Or.inr ⟨[("a", { weight := some 0 })], rfl, by decide⟩))⟩

theorem cumWeight_succ_cons (v : String × VariantCfg)
    (vs : List (String × VariantCfg)) (k : ℕ) :
    cumWeight (v :: vs) (k + 1) = weightOf v.2 + cumWeight vs k := by
  simp [cumWeight, List.take_succ_cons]

theorem cumWeight_length (vs : List (String × VariantCfg)) :
    cumWeight vs vs.length = (vs.map fun v => weightOf v.2).sum := by
  simp [cumWeight, List.take_length]

/-- The selection loop always hits when the draw is at most the total:
it returns the first variant whose cumulative weight (on top of the
accumulator `c`) reaches `r`, and every earlier cumulative weight is
below `r`. -/
theorem scanVariants_spec (r : ℤ) :
    ∀ (vs : List (String × VariantCfg)) (c : ℤ), vs ≠ [] →
      r ≤ c + cumWeight vs vs.length →
      ∃ k, ∃ hk : k < vs.length,
        scanVariants r vs c = some (vs.get ⟨k, hk⟩).1 ∧
        r ≤ c + cumWeight vs (k + 1) ∧
        ∀ j, j < k → c + cumWeight vs (j + 1) < r := by
  intro vs
  induction vs with
  | nil => intro c hne _; exact absurd rfl hne
  | cons v rest ih =>
    intro c _ hr
    by_cases hle : r ≤ c + weightOf v.2
    · refine ⟨0, Nat.succ_pos _, ?_, ?_, ?_⟩
      · simp [scanVariants, hle]
      · simpa [cumWeight_succ_cons, cumWeight] using hle
      · intro j hj; exact absurd hj (Nat.not_lt_zero j)
    · push_neg at hle
      have hrest : rest ≠ [] := by
        intro h0
        subst h0
        simp [cumWeight] at hr
        omega
      have hr' : r ≤ (c + weightOf v.2) + cumWeight rest rest.length := by
        rw [List.length_cons, cumWeight_succ_cons] at hr
        omega
      obtain ⟨k, hk, hscan, hub, hlb⟩ := ih (c + weightOf v.2) hrest hr'
      refine ⟨k + 1, Nat.succ_lt_succ hk, ?_, ?_, ?_⟩
      · have : scanVariants r (v :: rest) c =
            scanVariants r rest (c + weightOf v.2) := by
          simp [scanVariants, not_le.mpr hle]
        rw [this, hscan]
        rfl
      · rw [cumWeight_succ_cons]; omega
      · intro j hj
        cases j with
        | zero =>
          rw [cumWeight_succ_cons]
          simp only [cumWeight, List.take_zero, List.map_nil, List.sum_nil]
          omega
        | succ j =>
          have := hlb j (Nat.lt_of_succ_lt_succ hj)
          rw [cumWeight_succ_cons]
          omega

/-- C4: with non-negative integer weights of positive total `W` and a draw
`r ∈ [1, W]`, `select_variant` returns the name of a configured variant,
namely the first one (in configured order) whose cumulative weight reaches
`r`; the result comes from the scan loop, never from the
fallback-to-first branch. -/
theorem selectVariant_hits_in_range (routes : RouteTable) (team : String)
    (rt : RouteConfig) (vs : List (String × VariantCfg)) (r : ℤ)
    (hroute : lookupRoute routes team = some rt)
    (hvs : rt.ab_variants = some vs)
    (hpos : ∀ v ∈ vs, 0 ≤ weightOf v.2)
    (hW : 0 < (vs.map fun v => weightOf v.2).sum)
    (_hr1 : 1 ≤ r) (hrW : r ≤ (vs.map fun v => weightOf v.2).sum) :
    ∃ k, ∃ hk : k < vs.length,
      selectVariant routes team r = some (vs.get ⟨k, hk⟩).1 ∧
      scanVariants r vs 0 = some (vs.get ⟨k, hk⟩).1 ∧
      (vs.get ⟨k, hk⟩).1 ∈ vs.map Prod.fst ∧
      r ≤ cumWeight vs (k + 1) ∧
      ∀ j, j < k → cumWeight vs (j + 1) < r := by
  have hne : vs ≠ [] := by
    intro h0; subst h0; simp at hW
  have htot : r ≤ 0 + cumWeight vs vs.length := by
    rw [cumWeight_length]; omega
  obtain ⟨k, hk, hscan, hub, hlb⟩ := scanVariants_spec r vs 0 hne htot
  refine ⟨k, hk, ?_, hscan, ?_, by omega, fun j hj => by have := hlb j hj; omega⟩
  · cases vs with
    | nil => exact absurd rfl hne
    | cons v0 rest =>
      have hWne : ¬(((v0 :: rest).map fun v => weightOf v.2).sum = 0) := by
        omega
      simp only [selectVariant, hroute, hvs, hWne, if_false, hscan]
  · exact List.mem_map_of_mem Prod.fst (vs.get_mem k hk)

/-- Witness for `selectVariant_hits_in_range`: 3/1 split, draw 4 picks the
second variant. -/
theorem selectVariant_hits_in_range_witness :
    lookupRoute [("quant", abRoute)] "quant" = some abRoute ∧
    ∃ k, ∃ hk : k <
        [("a", ({ weight := some 3 } : VariantCfg)),
          ("b", ({ weight := some 1 } : VariantCfg))].length,
      selectVariant [("quant", abRoute)] "quant" 4 =
        some ([("a", ({ weight := some 3 } : VariantCfg)),
          ("b", ({ weight := some 1 } : VariantCfg))].get ⟨k, hk⟩).1 ∧
      scanVariants 4 [("a", ({ weight := some 3 } : VariantCfg)),
          ("b", ({ weight := some 1 } : VariantCfg))] 0 =
        some ([("a", ({ weight := some 3 } : VariantCfg)),
          ("b", ({ weight := some 1 } : VariantCfg))].get ⟨k, hk⟩).1 ∧
      (([("a", ({ weight := some 3 } : VariantCfg)),
          ("b", ({ weight := some 1 } : VariantCfg))].get ⟨k, hk⟩).1 ∈
        [("a", ({ weight := some 3 } : VariantCfg)),
          ("b", ({ weight := some 1 } : VariantCfg))].map Prod.fst) ∧
      4 ≤ cumWeight [("a", ({ weight := some 3 } : VariantCfg)),
          ("b", ({ weight := some 1 } : VariantCfg))] (k + 1) ∧
      ∀ j, j < k → cumWeight [("a", ({ weight := some 3 } : VariantCfg)),
          ("b", ({ weight := some 1 } : VariantCfg))] (j + 1) < 4 :=
  ⟨by decide,
    selectVariant_hits_in_range [("quant", abRoute)] "quant" abRoute
      [("a", { weight := some 3 }), ("b", { weight := some 1 })] 4
      (by decide) rfl (by decide) (by decide) (by decide) (by decide)⟩

theorem mem_keys_optEntry (k q : String) (v : Option String) :
    q ∈ (optEntry k v).map Prod.fst ↔ q = k ∧ ∃ s, v = some s ∧ s ≠ "" := by
  cases v with
  | none => simp [optEntry]
  | some s =>
    by_cases hs : s = ""
    · subst hs; simp [optEntry]
    · simp [optEntry, hs]

theorem mem_optEntry_key (key k v : String) (ov : Option String)
    (h : (k, v) ∈ optEntry key ov) : k = key := by
  cases ov with
  | none => simp [optEntry] at h
  | some s =>
    by_cases hs : s = ""
    · simp [optEntry, hs] at h
    · simp [optEntry, hs] at h
      exact h.1

/-- C10: the baggage of `create_propagation_headers` always carries the
policy-id entry; each of the four optional keys appears iff the
corresponding argument is a non-empty string (an empty string is dropped
like an absent one); and no key outside the five enumerated ones ever
appears. -/
theorem propagation_baggage_keys (policy_id : String)
    (ab_bucket experiment_id promptset_id variant_id : Option String) :
    ("lab.route.policy.id", policy_id) ∈
      createPropagationBaggage policy_id ab_bucket experiment_id
        promptset_id variant_id ∧
    (∀ k v, (k, v) ∈ createPropagationBaggage policy_id ab_bucket
        experiment_id promptset_id variant_id → k ∈ baggageKeys) ∧
    ("lab.ab.bucket" ∈ (createPropagationBaggage policy_id ab_bucket
        experiment_id promptset_id variant_id).map Prod.fst ↔
      ∃ s, ab_bucket = some s ∧ s ≠ "") ∧
    ("lab.experiment.id" ∈ (createPropagationBaggage policy_id ab_bucket
        experiment_id promptset_id variant_id).map Prod.fst ↔
      ∃ s, experiment_id = some s ∧ s ≠ "") ∧
    ("lab.promptset.id" ∈ (createPropagationBaggage policy_id ab_bucket
        experiment_id promptset_id variant_id).map Prod.fst ↔
      ∃ s, promptset_id = some s ∧ s ≠ "") ∧
    ("lab.model.variant.id" ∈ (createPropagationBaggage policy_id ab_bucket
        experiment_id promptset_id variant_id).map Prod.fst ↔
      ∃ s, variant_id = some s ∧ s ≠ "") := by
  refine ⟨by simp [createPropagationBaggage], ?_, ?_, ?_, ?_, ?_⟩
  · intro k v hkv
    simp only [createPropagationBaggage, List.mem_append,
      List.mem_singleton] at hkv
    rcases hkv with (((h | h) | h) | h) | h
    · rw [Prod.mk.injEq] at h
      rw [h.1]; simp [baggageKeys]
    · rw [mem_optEntry_key _ _ _ _ h]; simp [baggageKeys]
    · rw [mem_optEntry_key _ _ _ _ h]; simp [baggageKeys]
    · rw [mem_optEntry_key _ _ _ _ h]; simp [baggageKeys]
    · rw [mem_optEntry_key _ _ _ _ h]; simp [baggageKeys]
  all_goals
    simp only [createPropagationBaggage, List.map_append, List.mem_append,
      List.map_cons, List.map_nil, List.mem_singleton, mem_keys_optEntry]
  · simp [show ("lab.ab.bucket" : String) ≠ "lab.route.policy.id" by decide,
      show ("lab.ab.bucket" : String) ≠ "lab.experiment.id" by decide,
      show ("lab.ab.bucket" : String) ≠ "lab.promptset.id" by decide,
      show ("lab.ab.bucket" : String) ≠ "lab.model.variant.id" by decide]
  · simp [show ("lab.experiment.id" : String) ≠ "lab.route.policy.id" by decide,
      show ("lab.experiment.id" : String) ≠ "lab.ab.bucket" by decide,
      show ("lab.experiment.id" : String) ≠ "lab.promptset.id" by decide,
      show ("lab.experiment.id" : String) ≠ "lab.model.variant.id" by decide]
  · simp [show ("lab.promptset.id" : String) ≠ "lab.route.policy.id" by decide,
      show ("lab.promptset.id" : String) ≠ "lab.ab.bucket" by decide,
      show ("lab.promptset.id" : String) ≠ "lab.experiment.id" by decide,
      show ("lab.promptset.id" : String) ≠ "lab.model.variant.id" by decide]
  · simp [show ("lab.model.variant.id" : String) ≠ "lab.route.policy.id" by decide,
      show ("lab.model.variant.id" : String) ≠ "lab.ab.bucket" by decide,
      show ("lab.model.variant.id" : String) ≠ "lab.experiment.id" by decide,
      show ("lab.model.variant.id" : String) ≠ "lab.promptset.id" by decide]

/-- Witness for `propagation_baggage_keys`: a set bucket appears, a dropped
empty experiment id does not. -/
theorem propagation_baggage_keys_witness :
    ("lab.ab.bucket" ∈ (createPropagationBaggage "default" (some "B")
      (some "") none none).map Prod.fst) ∧
    ¬("lab.experiment.id" ∈ (createPropagationBaggage "default" (some "B")
      (some "") none none).map Prod.fst) :=
  ⟨(propagation_baggage_keys "default" (some "B") (some "") none
      none).2.2.1.mpr ⟨"B", rfl, by decide⟩,
    fun h =>
      by
        obtain ⟨s, hs, hne⟩ := (propagation_baggage_keys "default" (some "B")
          (some "") none none).2.2.2.1.mp h
        rw [Option.some.injEq] at hs
        exact hne hs.symm⟩

/-- Counterexample to C3 as stated: an unknown-team predict call is
answered with a structured 404 body that carries the error kind and team
but *no* correlation id, although one was supplied in the request. -/
theorem routePredict_unknown_team_counterexample :
    routePredict [] "quant" (some "cid-1") "gen-uuid" 1 (CallOutcome.ok "") =
      GatewayReply.httpError 404
        { error := "unknown_team", team := "quant", message := none,
          correlation_id := none } := by
  rfl

/-- C3 (amended): every gateway error body is structured; the upstream
timeout (504) and upstream error (502) bodies always carry the
correlation id, while the unknown-team body (404) carries the error kind
and team but no correlation id. -/
theorem routePredict_error_correlation (routes : RouteTable) (team : String)
    (xcid : Option String) (gen : String) (r : ℤ) (outcome : CallOutcome)
    (s : ℕ) (d : ErrorDetail)
    (h : routePredict routes team xcid gen r outcome =
      GatewayReply.httpError s d) :
    (s = 404 ∧ d.error = "unknown_team" ∧ d.correlation_id = none) ∨
    ((s = 504 ∧ d.error = "upstream_timeout") ∨
      (s = 502 ∧ d.error = "upstream_error")) ∧ d.correlation_id.isSome := by
  unfold routePredict at h
  cases hlk : lookupRoute routes team with
  | none =>
    rw [hlk] at h
    simp only [GatewayReply.httpError.injEq] at h
    left
    refine ⟨h.1.symm, ?_, ?_⟩ <;> rw [← h.2]
  | some rt =>
    rw [hlk] at h
    cases outcome with
    | ok result => simp at h
    | timeout =>
      simp only [GatewayReply.httpError.injEq] at h
      right
      refine ⟨Or.inl ⟨h.1.symm, by rw [← h.2]⟩, ?_⟩
      rw [← h.2]
      rfl
    | failure msg =>
      simp only [GatewayReply.httpError.injEq] at h
      right
      refine ⟨Or.inr ⟨h.1.symm, by rw [← h.2]⟩, ?_⟩
      rw [← h.2]
      rfl

/-- Witness for `routePredict_error_correlation`: a timeout answer from a
configured team carries the generated correlation id. -/
theorem routePredict_error_correlation_witness :
    routePredict [("quant", abRoute)] "quant" none "gen-uuid" 1
        CallOutcome.timeout =
      GatewayReply.httpError 504
        { error := "upstream_timeout", team := "quant", message := none,
          correlation_id := some "gen-uuid" } ∧
    ((504 = 404 ∧ ("upstream_timeout" : String) = "unknown_team" ∧
        (some "gen-uuid" : Option String) = none) ∨
      ((504 = 504 ∧ ("upstream_timeout" : String) = "upstream_timeout") ∨
        (504 = 502 ∧ ("upstream_timeout" : String) = "upstream_error")) ∧
        (some "gen-uuid" : Option String).isSome) :=
  ⟨by rfl,
    routePredict_error_correlation [("quant", abRoute)] "quant" none
      "gen-uuid" 1 CallOutcome.timeout 504
      { error := "upstream_timeout", team := "quant", message := none,
        correlation_id := some "gen-uuid" } (by rfl)⟩

theorem promptTasks_length (jp : String → Bool) (cfg : HarnessCfg)
    (team : String) (variant : Option String)
    (outcome : ℕ → Except String BackendResponse) (lat : ℕ → ℚ)
    (bl : ℕ → Except String (BackendResponse × ℚ)) :
    ∀ (ps : List Prompt) (i : ℕ),
      (promptTasks jp cfg team variant outcome lat bl i ps).length =
        ps.length := by
  intro ps
  induction ps with
  | nil => intro i; rfl
  | cons p rest ih =>
    intro i
    simp [promptTasks, ih (i + 1)]

theorem promptTasks_getElem (jp : String → Bool) (cfg : HarnessCfg)
    (team : String) (variant : Option String)
    (outcome : ℕ → Except String BackendResponse) (lat : ℕ → ℚ)
    (bl : ℕ → Except String (BackendResponse × ℚ)) :
    ∀ (ps : List Prompt) (i k : ℕ),
      (promptTasks jp cfg team variant outcome lat bl i ps)[k]? =
        (ps[k]?).map fun p =>
          executePrompt jp cfg p team variant (outcome (i + k)) (lat (i + k))
            (bl (i + k)) := by
  intro ps
  induction ps with
  | nil => intro i k; simp [promptTasks]
  | cons p rest ih =>
    intro i k
    cases k with
    | zero => simp [promptTasks]
    | succ k =>
      simp only [promptTasks, List.getElem?_cons_succ, ih (i + 1) k]
      have : i + 1 + k = i + (k + 1) := by omega
      rw [this]

theorem sequenceE_eq_ok :
    ∀ (xs : List (Except String HarnessResult)) (ys : List HarnessResult),
      sequenceE xs = Except.ok ys ↔ xs = ys.map Except.ok := by
  intro xs
  induction xs with
  | nil =>
    intro ys
    cases ys with
    | nil => simp [sequenceE]
    | cons y ys => simp [sequenceE]
  | cons x rest ih =>
    intro ys
    cases x with
    | error e =>
      simp only [sequenceE]
      constructor
      · intro h; exact absurd h (by simp)
      · intro h
        cases ys with
        | nil => simp at h
        | cons y ys => simp at h
    | ok a =>
      cases hrest : sequenceE rest with
      | error e =>
        simp only [sequenceE, hrest]
        constructor
        · intro h; exact absurd h (by simp)
        · intro h
          cases ys with
          | nil => simp at h
          | cons y ys =>
            simp only [List.map_cons, List.cons.injEq, Except.ok.injEq] at h
            have := (ih ys).mpr h.2
            rw [this] at hrest
            exact absurd hrest (by simp)
      | ok zs =>
        have hr := (ih zs).mp hrest
        simp only [sequenceE, hrest]
        constructor
        · intro h
          rw [Except.ok.injEq] at h
          rw [← h, List.map_cons, ← hr]
        · intro h
          cases ys with
          | nil => simp at h
          | cons y ys =>
            simp only [List.map_cons, List.cons.injEq, Except.ok.injEq] at h
            rw [Except.ok.injEq, h.1]
            have := (ih ys).mpr h.2
            rw [this] at hrest
            rw [Except.ok.injEq] at hrest
            rw [hrest]

theorem gatherSched_length (task : ℕ → HarnessResult)
    (init : List HarnessResult) (sched : List ℕ) :
    (gatherSched task init sched).length = init.length := by
  induction sched generalizing init with
  | nil => rfl
  | cons i rest ih =>
    simp only [gatherSched, List.foldl_cons] at *
    rw [ih (init.set i (task i)), List.length_set]

theorem gatherSched_getElem_not_mem (task : ℕ → HarnessResult)
    (sched : List ℕ) (init : List HarnessResult) (j : ℕ) (hj : j ∉ sched) :
    (gatherSched task init sched)[j]? = init[j]? := by
  induction sched generalizing init with
  | nil => rfl
  | cons i rest ih =>
    have hji : i ≠ j := fun h => hj (h ▸ List.mem_cons_self i rest)
    have hjr : j ∉ rest := fun h => hj (List.mem_cons_of_mem i h)
    simp only [gatherSched, List.foldl_cons] at *
    rw [ih (init.set i (task i)) hjr, List.getElem?_set_ne hji]

theorem gatherSched_getElem_mem (task : ℕ → HarnessResult)
    (sched : List ℕ) (init : List HarnessResult) (j : ℕ) (hj : j ∈ sched)
    (hlen : j < init.length) :
    (gatherSched task init sched)[j]? = some (task j) := by
  induction sched generalizing init with
  | nil => exact absurd hj (List.not_mem_nil j)
  | cons i rest ih =>
    by_cases hjr : j ∈ rest
    · simp only [gatherSched, List.foldl_cons] at *
      exact ih (init.set i (task i)) hjr (by rw [List.length_set]; exact hlen)
    · have hij : i = j := by
        rcases List.mem_cons.mp hj with h | h
        · exact h.symm
        · exact absurd h hjr
      subst hij
      simp only [gatherSched, List.foldl_cons]
      have := gatherSched_getElem_not_mem task rest (init.set i (task i)) i hjr
      simp only [gatherSched] at this
      rw [this, List.getElem?_set_eq_of_lt (task i) hlen]

theorem gatherSched_reconstructs (task : ℕ → HarnessResult)
    (target init : List HarnessResult) (sched : List ℕ)
    (hlen : init.length = target.length)
    (htask : ∀ j, j < target.length → task j = target.getD j emptyResult)
    (hcov : ∀ j, j < target.length → j ∈ sched) :
    gatherSched task init sched = target := by
  apply List.ext_getElem?
  intro j
  by_cases hj : j < target.length
  · rw [gatherSched_getElem_mem task sched init j (hcov j hj)
      (by rw [hlen]; exact hj), htask j hj]
    rw [List.getD_eq_getElem?_getD, List.getElem?_eq_getElem hj]
    rfl
  · push_neg at hj
    have h1 : (gatherSched task init sched)[j]? = none := by
      apply List.getElem?_eq_none
      rw [gatherSched_length, hlen]
      exact hj
    have h2 : target[j]? = none := List.getElem?_eq_none hj
    rw [h1, h2]

/-- C9: when `run_promptset` returns a result list, it has one entry per
prompt and its k-th entry is exactly the `execute_prompt` outcome of the
k-th prompt; moreover any completion order of the per-slot task writes
(any schedule covering every index) reconstructs the same list, so the
output is independent of the order in which concurrent tasks finish. -/
theorem runPromptset_preserves_order (jp : String → Bool) (cfg : HarnessCfg)
    (prompts : List Prompt) (team : String) (variant : Option String)
    (outcome : ℕ → Except String BackendResponse) (lat : ℕ → ℚ)
    (bl : ℕ → Except String (BackendResponse × ℚ))
    (results : List HarnessResult)
    (h : runPromptset jp cfg prompts team variant outcome lat bl =
      Except.ok results) :
    results.length = prompts.length ∧
    (∀ k, k < prompts.length → ∃ p, prompts[k]? = some p ∧
      executePrompt jp cfg p team variant (outcome k) (lat k) (bl k) =
        Except.ok (results.getD k emptyResult)) ∧
    (∀ (init : List HarnessResult) (sched : List ℕ),
      init.length = results.length →
      (∀ j, j < results.length → j ∈ sched) →
      gatherSched (fun k => results.getD k emptyResult) init sched =
        results) := by
  unfold runPromptset at h
  have htasks := (sequenceE_eq_ok _ results).mp h
  have hlen1 := promptTasks_length jp cfg team variant outcome lat bl prompts 0
  rw [htasks, List.length_map] at hlen1
  refine ⟨hlen1, ?_, ?_⟩
  · intro k hk
    have hkr : k < results.length := by rw [hlen1]; exact hk
    have hget := promptTasks_getElem jp cfg team variant outcome lat bl
      prompts 0 k
    rw [htasks, List.getElem?_map, Nat.zero_add] at hget
    have hres : results[k]? = some (results.getD k emptyResult) := by
      rw [List.getElem?_eq_getElem hkr]
      congr 1
      rw [List.getD_eq_getElem?_getD, List.getElem?_eq_getElem hkr]
      rfl
    have hpr : prompts[k]? = some (prompts.get ⟨k, hk⟩) := by
      rw [List.getElem?_eq_getElem hk]
      rfl
    rw [hres, hpr] at hget
    simp only [Option.map_some'] at hget
    exact ⟨prompts.get ⟨k, hk⟩, hpr, (Option.some.inj hget).symm⟩
  · intro init sched hlen2 hcov
    exact gatherSched_reconstructs _ results init sched hlen2
      (fun j hj => rfl) hcov

/-- Witness for `runPromptset_preserves_order`: a one-prompt set whose
dispatch fails yields exactly its one failure record, in place. -/
theorem runPromptset_preserves_order_witness :
    runPromptset jpNone { gateway_url := "g", run_id := "r" } [samplePrompt]
        "quant" none (fun _ => Except.error "boom") (fun _ => 7)
        (fun _ => Except.error "") = Except.ok [sampleFailResult] ∧
    ([sampleFailResult].length = [samplePrompt].length ∧
      (∀ k, k < [samplePrompt].length → ∃ p, [samplePrompt][k]? = some p ∧
        executePrompt jpNone { gateway_url := "g", run_id := "r" } p "quant"
            none ((fun _ => Except.error "boom") k) ((fun _ => (7 : ℚ)) k)
            ((fun _ => Except.error "") k) =
          Except.ok ([sampleFailResult].getD k emptyResult)) ∧
      (∀ (init : List HarnessResult) (sched : List ℕ),
        init.length = [sampleFailResult].length →
        (∀ j, j < [sampleFailResult].length → j ∈ sched) →
        gatherSched (fun k => [sampleFailResult].getD k emptyResult) init
          sched = [sampleFailResult])) :=
  ⟨by rfl,
    runPromptset_preserves_order jpNone { gateway_url := "g", run_id := "r" }
      [samplePrompt] "quant" none (fun _ => Except.error "boom") (fun _ => 7)
      (fun _ => Except.error "") [sampleFailResult] (by rfl)⟩

/-- Counterexample to C1 as stated: `badRunRecord` is terminal (`failed`)
but `passed + failed = 0 ≠ 1 = total`, because `_execute_run` stores the
prompt count before dispatch and its `except` branch does not touch the
counters. -/
theorem executeRun_terminal_counts_counterexample :
    badRunRecord.status = RunStatus.failed ∧
    badRunRecord.total = 1 ∧
    badRunRecord.passed + badRunRecord.failed ≠ badRunRecord.total := by
  refine ⟨rfl, rfl, ?_⟩
  decide

/-- C1 (amended): for a record initialised by `start_harness_run` and then
written only by its single `_execute_run` task (run ids are fresh per
task, so no later write ever touches the record again), a `completed`
record satisfies `passed + failed = total` from then on; a `failed` record
keeps its initial `passed = failed = 0`, so the equality holds there only
when the failure happened before the prompt count was stored. -/
theorem executeRun_terminal_counts (jp : String → Bool) (g : String)
    (rec : RunRecord) (load : Except String (List Prompt)) (mp : Option ℕ)
    (team : String) (variant : Option String) (conc : ℕ)
    (outcome : ℕ → Except String BackendResponse) (lat : ℕ → ℚ)
    (bl : ℕ → Except String (BackendResponse × ℚ)) (now : String)
    (h0 : rec.passed = 0) (h1 : rec.failed = 0) :
    ((executeRun jp g rec load mp team variant conc outcome lat bl
        now).status = RunStatus.completed →
      (executeRun jp g rec load mp team variant conc outcome lat bl
          now).passed +
        (executeRun jp g rec load mp team variant conc outcome lat bl
          now).failed =
        (executeRun jp g rec load mp team variant conc outcome lat bl
          now).total) ∧
    ((executeRun jp g rec load mp team variant conc outcome lat bl
        now).status = RunStatus.failed →
      (executeRun jp g rec load mp team variant conc outcome lat bl
          now).passed = 0 ∧
        (executeRun jp g rec load mp team variant conc outcome lat bl
          now).failed = 0) := by
  cases load with
  | error e =>
    constructor
    · intro hc
      simp [executeRun, failUpdate] at hc
    · intro _
      simp [executeRun, failUpdate, h0, h1]
  | ok prompts0 =>
    cases hrun : runPromptset jp
        { gateway_url := g, run_id := rec.run_id, concurrency := conc }
        (applyMaxPrompts prompts0 mp) team variant outcome lat bl with
    | error e =>
      constructor
      · intro hc
        simp [executeRun, hrun, failUpdate] at hc
      · intro _
        simp [executeRun, hrun, failUpdate, h0, h1]
    | ok results =>
      constructor
      · intro _
        simp only [executeRun, hrun]
        exact (@List.length_eq_length_filter_add HarnessResult results
          (fun res => res.passed)).symm
      · intro hc
        simp [executeRun, hrun] at hc

/-- Witness for `executeRun_terminal_counts`: a completed one-prompt run
has `passed + failed = total`. -/
theorem executeRun_terminal_counts_witness :
    oneFailRunRecord.status = RunStatus.completed ∧
    oneFailRunRecord.passed + oneFailRunRecord.failed =
      oneFailRunRecord.total :=
  ⟨rfl,
    (executeRun_terminal_counts jpNone "g"
      (initRunRecord "r3" "canary" "quant" none "t0")
      (Except.ok [samplePrompt]) none "quant" none 5
      (fun _ => Except.error "boom") (fun _ => 7) (fun _ => Except.error "")
      "t1" rfl rfl).1 rfl⟩

/-- C7: a run that completes has
`pass_rate = round(passed / total * 100, 1)` when `total > 0` and
`pass_rate = 0` when `total = 0` (the empty result set takes the guarded
`else` branch instead of dividing by zero). -/
theorem executeRun_pass_rate (jp : String → Bool) (g : String)
    (rec : RunRecord) (load : Except String (List Prompt)) (mp : Option ℕ)
    (team : String) (variant : Option String) (conc : ℕ)
    (outcome : ℕ → Except String BackendResponse) (lat : ℕ → ℚ)
    (bl : ℕ → Except String (BackendResponse × ℚ)) (now : String)
    (h : (executeRun jp g rec load mp team variant conc outcome lat bl
      now).status = RunStatus.completed) :
    (executeRun jp g rec load mp team variant conc outcome lat bl
        now).pass_rate =
      if 0 < (executeRun jp g rec load mp team variant conc outcome lat bl
          now).total
      then round1
        (((executeRun jp g rec load mp team variant conc outcome lat bl
            now).passed : ℚ) /
          ((executeRun jp g rec load mp team variant conc outcome lat bl
            now).total : ℚ) * 100)
      else 0 := by
  cases load with
  | error e => simp [executeRun, failUpdate] at h
  | ok prompts0 =>
    cases hrun : runPromptset jp
        { gateway_url := g, run_id := rec.run_id, concurrency := conc }
        (applyMaxPrompts prompts0 mp) team variant outcome lat bl with
    | error e => simp [executeRun, hrun, failUpdate] at h
    | ok results =>
      simp only [executeRun, hrun]
      cases results with
      | nil => simp
      | cons y ys => simp

/-- Witness for `executeRun_pass_rate` at a completed run with one failed
prompt: `total = 1 > 0`. -/
theorem executeRun_pass_rate_witness :
    oneFailRunRecord.status = RunStatus.completed ∧
    oneFailRunRecord.pass_rate =
      if 0 < oneFailRunRecord.total
      then round1 ((oneFailRunRecord.passed : ℚ) /
        (oneFailRunRecord.total : ℚ) * 100)
      else 0 :=
  ⟨rfl,
    executeRun_pass_rate jpNone "g"
      (initRunRecord "r3" "canary" "quant" none "t0")
      (Except.ok [samplePrompt]) none "quant" none 5
      (fun _ => Except.error "boom") (fun _ => 7) (fun _ => Except.error "")
      "t1" rfl⟩
